import Mathlib

/-!
Shallow embedding of the `bbs-ansi-to-html` conversion engine.

The definitions below translate the TypeScript sources of the repository:
  * `cp437.ts` — the CP437 → Unicode code-page table;
  * `colors.ts` — `colorToHex`;
  * `converter.ts` — the `Converter` class (CP437 byte path), its SGR /
    Synchronet / Renegade processors, the output emitter, and the
    SAUCE/COMNT trailer parser.

Input is modelled as a `List Nat` of char codes (in CP437 mode each unit's
code is the raw byte value), and the produced HTML as a `String`, exactly
as in the source.  JavaScript-specific constructs are translated explicitly:
`parseInt(s, 10) || 0` becomes `parseIntOr0`, `String.prototype.lastIndexOf`
becomes `lastIndexOfList`, the regex `[\s\0]+$` trim becomes
`rstripSpaceNull`, and truthiness tests on strings/numbers become
emptiness/positivity tests.
-/

/-- CP437 to Unicode mapping table (`CP437_TO_UNICODE` from `cp437.ts`),
256 single characters in byte order. -/
def CP437_TO_UNICODE : List Char := [
  '\u0000', '\u263A', '\u263B', '\u2665', '\u2666', '\u2663', '\u2660', '\u2022',
  '\u25D8', '\u25CB', '\u25D9', '\u2642', '\u2640', '\u266A', '\u266B', '\u263C',
  '\u25BA', '\u25C4', '\u2195', '\u203C', '\u00B6', '\u00A7', '\u25AC', '\u21A8',
  '\u2191', '\u2193', '\u2192', '\u2190', '\u221F', '\u2194', '\u25B2', '\u25BC',
  '\u0020', '\u0021', '\u0022', '\u0023', '\u0024', '\u0025', '\u0026', '\u0027',
  '\u0028', '\u0029', '\u002A', '\u002B', '\u002C', '\u002D', '\u002E', '\u002F',
  '\u0030', '\u0031', '\u0032', '\u0033', '\u0034', '\u0035', '\u0036', '\u0037',
  '\u0038', '\u0039', '\u003A', '\u003B', '\u003C', '\u003D', '\u003E', '\u003F',
  '\u0040', '\u0041', '\u0042', '\u0043', '\u0044', '\u0045', '\u0046', '\u0047',
  '\u0048', '\u0049', '\u004A', '\u004B', '\u004C', '\u004D', '\u004E', '\u004F',
  '\u0050', '\u0051', '\u0052', '\u0053', '\u0054', '\u0055', '\u0056', '\u0057',
  '\u0058', '\u0059', '\u005A', '\u005B', '\u005C', '\u005D', '\u005E', '\u005F',
  '\u0060', '\u0061', '\u0062', '\u0063', '\u0064', '\u0065', '\u0066', '\u0067',
  '\u0068', '\u0069', '\u006A', '\u006B', '\u006C', '\u006D', '\u006E', '\u006F',
  '\u0070', '\u0071', '\u0072', '\u0073', '\u0074', '\u0075', '\u0076', '\u0077',
  '\u0078', '\u0079', '\u007A', '\u007B', '\u007C', '\u007D', '\u007E', '\u2302',
  '\u00C7', '\u00FC', '\u00E9', '\u00E2', '\u00E4', '\u00E0', '\u00E5', '\u00E7',
  '\u00EA', '\u00EB', '\u00E8', '\u00EF', '\u00EE', '\u00EC', '\u00C4', '\u00C5',
  '\u00C9', '\u00E6', '\u00C6', '\u00F4', '\u00F6', '\u00F2', '\u00FB', '\u00F9',
  '\u00FF', '\u00D6', '\u00DC', '\u00A2', '\u00A3', '\u00A5', '\u20A7', '\u0192',
  '\u00E1', '\u00ED', '\u00F3', '\u00FA', '\u00F1', '\u00D1', '\u00AA', '\u00BA',
  '\u00BF', '\u2310', '\u00AC', '\u00BD', '\u00BC', '\u00A1', '\u00AB', '\u00BB',
  '\u2591', '\u2592', '\u2593', '\u2502', '\u2524', '\u2561', '\u2562', '\u2556',
  '\u2555', '\u2563', '\u2551', '\u2557', '\u255D', '\u255C', '\u255B', '\u2510',
  '\u2514', '\u2534', '\u252C', '\u251C', '\u2500', '\u253C', '\u255E', '\u255F',
  '\u255A', '\u2554', '\u2569', '\u2566', '\u2560', '\u2550', '\u256C', '\u2567',
  '\u2568', '\u2564', '\u2565', '\u2559', '\u2558', '\u2552', '\u2553', '\u256B',
  '\u256A', '\u2518', '\u250C', '\u2588', '\u2584', '\u258C', '\u2590', '\u2580',
  '\u03B1', '\u00DF', '\u0393', '\u03C0', '\u03A3', '\u03C3', '\u00B5', '\u03C4',
  '\u03A6', '\u0398', '\u03A9', '\u03B4', '\u221E', '\u03C6', '\u03B5', '\u2229',
  '\u2261', '\u00B1', '\u2265', '\u2264', '\u2320', '\u2321', '\u00F7', '\u2248',
  '\u00B0', '\u2219', '\u00B7', '\u221A', '\u207F', '\u00B2', '\u25A0', '\u00A0']

/-- Convert a color code (0-15) to a lowercase hex character
(`colorToHex` from `colors.ts`; the `color >= 0` guard of the source is
vacuous over `Nat`). -/
def colorToHex (color : Nat) : Char :=
  if color ≤ 9 then Char.ofNat (0x30 + color)
  else if color ≤ 15 then Char.ofNat (0x61 + color - 10)
  else '0'

/-- Options for controlling conversion behavior (`ConvertOptions` from
`converter.ts`, with the constructor's `?? false` defaults). -/
structure ConvertOptions where
  synchronetCtrlA : Bool := false
  renegadePipe : Bool := false
  utf8Input : Bool := false
deriving DecidableEq, Repr

/-- Parser state for ANSI escape sequences (`ParseState` from `converter.ts`). -/
inductive ParseState where
  | Normal
  | Escape
  | Csi
  | SynchronetCtrlA
  | RenegadePipe1
  | RenegadePipe2
deriving DecidableEq, Repr

/-- The mutable fields of the `Converter` class, with their field
initializers as defaults. -/
structure ConvState where
  foreground : Nat := 7
  background : Nat := 0
  output : String := ""
  currentColumn : Nat := 0
  lineHasAnsi : Bool := false
  savePositionActive : Bool := false
  parseState : ParseState := ParseState.Normal
  csiParams : String := ""
  renegadeFirstDigit : Nat := 0
deriving DecidableEq, Repr

/-- Char codes of a Lean string literal, used to spell out concrete inputs
(in CP437 mode each unit's char code is the byte value). -/
def strCodes (s : String) : List Nat := s.data.map Char.toNat

/-- JavaScript `parseInt(s, 10) || 0` on the digit/semicolon strings the
converter produces: the value of the leading run of decimal digits, and 0
when there is none (`parseInt` yields `NaN` there). -/
def parseIntOr0L (l : List Char) : Nat :=
  (l.takeWhile Char.isDigit).foldl (fun a c => a * 10 + (c.toNat - 48)) 0

/-- `parseIntOr0L` on a string. -/
def parseIntOr0 (s : String) : Nat := parseIntOr0L s.data

/-- JavaScript `params.split(';')` on the character list of the parameter
string (structural recursion, so that proofs can evaluate it). -/
def splitOnSemi : List Char → List (List Char)
  | [] => [[]]
  | c :: rest =>
    let gs := splitOnSemi rest
    if c = ';' then [] :: gs
    else
      match gs with
      | g :: tl => (c :: g) :: tl
      | [] => [[c]]

/-- Map ANSI color code (0-7) to CGA color code (`ansiToCga`). -/
def ansiToCga (ansiColor : Nat) : Nat :=
  match ansiColor with
  | 0 => 0
  | 1 => 4
  | 2 => 2
  | 3 => 6
  | 4 => 1
  | 5 => 5
  | 6 => 3
  | 7 => 7
  | _ => 7

/-- Map bright ANSI color code (0-7) to CGA bright color code
(`ansiBrightToCga`). -/
def ansiBrightToCga (ansiColor : Nat) : Nat :=
  match ansiColor with
  | 0 => 8
  | 1 => 12
  | 2 => 10
  | 3 => 14
  | 4 => 9
  | 5 => 13
  | 6 => 11
  | 7 => 15
  | _ => 15

namespace Converter

/-- Emit the opening color tag (`Converter.openTag`). -/
def openTag (s : ConvState) : ConvState :=
  { s with output := s.output ++ "<ans-" ++ String.singleton (colorToHex s.background)
      ++ String.singleton (colorToHex s.foreground) ++ ">" }

/-- Emit the closing color tag (`Converter.closeTag`). -/
def closeTag (s : ConvState) : ConvState :=
  { s with output := s.output ++ "</ans-" ++ String.singleton (colorToHex s.background)
      ++ String.singleton (colorToHex s.foreground) ++ ">" }

/-- Switch to a new color pair, closing and reopening tags only when the
combined state changes (`Converter.switchColor`). -/
def switchColor (s : ConvState) (newBg newFg : Nat) : ConvState :=
  if newBg ≠ s.background ∨ newFg ≠ s.foreground then
    openTag { (closeTag s) with background := newBg, foreground := newFg }
  else s

/-- Emit one literal character through the output emitter
(`Converter.emitChar`): suppression, soft wrap at column 80, HTML
escaping, newline/carriage-return handling. -/
def emitChar (s : ConvState) (ch : Char) : ConvState :=
  if s.savePositionActive then s
  else
    let s :=
      if s.lineHasAnsi ∧ 80 ≤ s.currentColumn ∧ ch ≠ '\n' then
        { s with output := s.output ++ "\n", currentColumn := 0 }
      else s
    if ch = '<' then
      { s with output := s.output ++ "&lt;", currentColumn := s.currentColumn + 1 }
    else if ch = '>' then
      { s with output := s.output ++ "&gt;", currentColumn := s.currentColumn + 1 }
    else if ch = '&' then
      { s with output := s.output ++ "&amp;", currentColumn := s.currentColumn + 1 }
    else if ch = Char.ofNat 34 then
      { s with output := s.output ++ "&quot;", currentColumn := s.currentColumn + 1 }
    else if ch = Char.ofNat 39 then
      { s with output := s.output ++ "&apos;", currentColumn := s.currentColumn + 1 }
    else if ch = '\n' then
      { s with output := s.output ++ "\n", currentColumn := 0, lineHasAnsi := false }
    else if ch = '\r' then s
    else
      { s with output := s.output ++ String.singleton ch,
               currentColumn := s.currentColumn + 1 }

/-- One SGR parameter applied to the working (foreground, background) pair:
the body of the `for (const code of codes)` loop of `Converter.processSgr`. -/
def sgrStep (c : Nat × Nat) (code : Nat) : Nat × Nat :=
  match code with
  | 0 => (7, 0)
  | 1 => (c.1 ||| 0x08, c.2)
  | 2 => (c.1 &&& 0x07, c.2)
  | 22 => (c.1 &&& 0x07, c.2)
  | 5 => (c.1, c.2 ||| 0x08)
  | 6 => (c.1, c.2 ||| 0x08)
  | 25 => (c.1, c.2 &&& 0x07)
  | 7 => (c.2, c.1)
  | 30 | 31 | 32 | 33 | 34 | 35 | 36 | 37 =>
      ((c.1 &&& 0x08) ||| ansiToCga (code - 30), c.2)
  | 39 => (7, c.2)
  | 40 | 41 | 42 | 43 | 44 | 45 | 46 | 47 =>
      (c.1, (c.2 &&& 0x08) ||| ansiToCga (code - 40))
  | 49 => (c.1, 0)
  | 90 | 91 | 92 | 93 | 94 | 95 | 96 | 97 =>
      (ansiBrightToCga (code - 90), c.2)
  | 100 | 101 | 102 | 103 | 104 | 105 | 106 | 107 =>
      (c.1, ansiBrightToCga (code - 100))
  | _ => (c.1, c.2)

/-- SGR (`m`) parameter list processing (`Converter.processSgr`): an empty
parameter string means `[0]`; otherwise split on `;`, parse each component,
fold over the working color pair, and commit via `switchColor`. -/
def processSgr (s : ConvState) (params : String) : ConvState :=
  let codes := if params = "" then [0] else (splitOnSemi params.data).map parseIntOr0L
  let r := codes.foldl sgrStep (s.foreground, s.background)
  switchColor s r.2 r.1

/-- CSI command dispatch (`Converter.processCsi`): marks the line as having
seen an escape, then handles `m`, `J`, `s`, `u`, `C`; `H`, `f`, `A`, `B`,
`D`, `K` and unknown finals have no further effect. -/
def processCsi (s : ConvState) (params : String) (command : Char) : ConvState :=
  let s := { s with lineHasAnsi := true }
  if command = 'm' then processSgr s params
  else if command = 'J' then
    let n := parseIntOr0 params
    if n = 2 ∨ n = 3 then emitChar (emitChar (emitChar s '\n') '\n') '\n' else s
  else if command = 's' then { s with savePositionActive := true }
  else if command = 'u' then { s with savePositionActive := false }
  else if command = 'C' then
    let p := parseIntOr0 params
    let n := max 1 (if p = 0 then 1 else p)
    (List.replicate n ' ').foldl emitChar s
  else s

/-- Pure color effect of a Synchronet Ctrl-A code byte on the working
(foreground, background) pair: the `switch` of
`Converter.processSynchronetCode`. -/
def synchronetEffect (code : Nat) (fg bg : Nat) : Nat × Nat :=
  match code with
  | 0x6B => (0, bg)
  | 0x62 => (1, bg)
  | 0x67 => (2, bg)
  | 0x63 => (3, bg)
  | 0x72 => (4, bg)
  | 0x6D => (5, bg)
  | 0x79 => (6, bg)
  | 0x77 => (7, bg)
  | 0x4B => (8, bg)
  | 0x42 => (9, bg)
  | 0x47 => (10, bg)
  | 0x43 => (11, bg)
  | 0x52 => (12, bg)
  | 0x4D => (13, bg)
  | 0x59 => (14, bg)
  | 0x57 => (15, bg)
  | 0x30 => (fg, 0)
  | 0x31 => (fg, 1)
  | 0x32 => (fg, 2)
  | 0x33 => (fg, 3)
  | 0x34 => (fg, 4)
  | 0x35 => (fg, 5)
  | 0x36 => (fg, 6)
  | 0x37 => (fg, 7)
  | 0x48 | 0x68 => (fg ||| 0x08, bg)
  | 0x49 | 0x69 => (fg, bg ||| 0x08)
  | 0x4E | 0x6E => (7, 0)
  | 0x2D => (fg &&& 0x07, bg)
  | 0x5F => (fg, bg &&& 0x07)
  | _ => (fg, bg)

/-- Synchronet Ctrl-A code handler (`Converter.processSynchronetCode`). -/
def processSynchronetCode (s : ConvState) (code : Nat) : ConvState :=
  let s := { s with lineHasAnsi := true }
  let r := synchronetEffect code s.foreground s.background
  switchColor s r.2 r.1

/-- Renegade two-digit code handler (`Converter.processRenegadeCode`):
0-15 set the foreground, 16-23 set the background to `code - 16`. -/
def processRenegadeCode (s : ConvState) (code : Nat) : ConvState :=
  let s := { s with lineHasAnsi := true }
  let newFg := if code ≤ 15 then code else s.foreground
  let newBg := if 16 ≤ code ∧ code ≤ 23 then code - 16 else s.background
  switchColor s newBg newFg

/-- The `ParseState.Normal` branch of `Converter.processCharCode`, split out
because the two Renegade fallback branches reprocess the current byte in
`Normal` state (the source does this by a recursive call after setting
`parseState = Normal`). -/
def processNormal (opts : ConvertOptions) (s : ConvState) (charCode : Nat) : ConvState :=
  if charCode = 0x1B then { s with parseState := ParseState.Escape }
  else if opts.synchronetCtrlA ∧ charCode = 0x01 then
    { s with parseState := ParseState.SynchronetCtrlA }
  else if opts.renegadePipe ∧ charCode = 0x7C then
    { s with parseState := ParseState.RenegadePipe1 }
  else if charCode = 0x0A then emitChar s '\n'
  else if charCode = 0x0D then s
  else if charCode < 0x20 ∨ 0x7F ≤ charCode then
    emitChar s (CP437_TO_UNICODE.getD charCode (Char.ofNat 0xFFFD))
  else emitChar s (Char.ofNat charCode)

/-- One byte of the CP437 state machine (`Converter.processCharCode`). -/
def processCharCode (opts : ConvertOptions) (s : ConvState) (charCode : Nat) : ConvState :=
  match s.parseState with
  | ParseState.Normal => processNormal opts s charCode
  | ParseState.Escape =>
    if charCode = 0x5B then
      { s with parseState := ParseState.Csi, csiParams := "" }
    else if charCode = 0x37 then
      { s with savePositionActive := true, lineHasAnsi := true,
               parseState := ParseState.Normal }
    else if charCode = 0x38 then
      { s with savePositionActive := false, lineHasAnsi := true,
               parseState := ParseState.Normal }
    else { s with parseState := ParseState.Normal }
  | ParseState.Csi =>
    if (0x30 ≤ charCode ∧ charCode ≤ 0x39) ∨ charCode = 0x3B then
      { s with csiParams := s.csiParams.push (Char.ofNat charCode) }
    else if 0x40 ≤ charCode ∧ charCode ≤ 0x7E then
      { (processCsi s s.csiParams (Char.ofNat charCode)) with
          parseState := ParseState.Normal }
    else { s with parseState := ParseState.Normal }
  | ParseState.SynchronetCtrlA =>
    { (processSynchronetCode s charCode) with parseState := ParseState.Normal }
  | ParseState.RenegadePipe1 =>
    if 0x30 ≤ charCode ∧ charCode ≤ 0x39 then
      { s with renegadeFirstDigit := charCode - 0x30,
               parseState := ParseState.RenegadePipe2 }
    else
      processNormal opts { (emitChar s '|') with parseState := ParseState.Normal } charCode
  | ParseState.RenegadePipe2 =>
    if 0x30 ≤ charCode ∧ charCode ≤ 0x39 then
      let code := s.renegadeFirstDigit * 10 + (charCode - 0x30)
      let s := if code ≤ 23 then processRenegadeCode s code else s
      { s with parseState := ParseState.Normal }
    else
      let d := s.renegadeFirstDigit
      let s := emitChar (emitChar s '|') (Char.ofNat (0x30 + d))
      processNormal opts { s with parseState := ParseState.Normal } charCode

end Converter

/-- Characters matched by the JavaScript regex class `\s` (used by the
`[\s\0]+$` trailing trim in `decodeField`). -/
def isJsSpace (c : Char) : Bool :=
  [' ', '\t', '\n', '\u000B', '\u000C', '\r', '\u00A0', '\u1680',
   '\u2000', '\u2001', '\u2002', '\u2003', '\u2004', '\u2005', '\u2006',
   '\u2007', '\u2008', '\u2009', '\u200A', '\u2028', '\u2029', '\u202F',
   '\u205F', '\u3000', '\uFEFF'].contains c

/-- JavaScript `result.replace(/[\s\0]+$/, '')`: drop the trailing run of
whitespace and NUL characters. -/
def rstripSpaceNull (s : String) : String :=
  String.mk ((s.data.reverse.dropWhile (fun c => isJsSpace c || c = '\u0000')).reverse)

/-- Decode a CP437 byte field to a string, trimming trailing spaces/nulls
(`decodeField` from `converter.ts`; the `?? String.fromCharCode(code)`
fallback for codes outside the table becomes `Char.ofNat`). -/
def decodeField (input : List Nat) (start len : Nat) : String :=
  rstripSpaceNull (String.mk
    (((input.drop start).take len).map
      (fun code => CP437_TO_UNICODE.getD code (Char.ofNat code))))

/-- SAUCE record data (`SauceRecord` from `converter.ts`). -/
structure SauceRecord where
  title : String
  author : String
  group : String
  date : String
  width : Nat
  height : Nat
  comments : List String
  font : String
deriving DecidableEq, Repr

/-- The COMNT-block loop of `parseSauceRecord` (`for i … i += 64`):
64-character comment lines decoded from index `i` on, empty lines dropped.
The structurally decreasing `fuel` argument encodes the loop bound
(`i` grows by 64 each pass, so `data.length` passes always suffice). -/
def commentLinesFrom (data : List Nat) : Nat → Nat → List String
  | 0, _ => []
  | fuel + 1, i =>
    if i < data.length then
      let line := decodeField data i 64
      let rest := commentLinesFrom data fuel (i + 64)
      if line = "" then rest else line :: rest
    else []

/-- The COMNT-block comment list of `parseSauceRecord`. -/
def commentLines (data : List Nat) : List String :=
  commentLinesFrom data data.length 0

/-- Parse a SAUCE record from the input starting at `saucePos`
(`parseSauceRecord` from `converter.ts`). -/
def parseSauceRecord (input : List Nat) (saucePos : Nat) (comntPos : Option Nat) :
    Option SauceRecord :=
  if saucePos + 128 > input.length then none
  else if (input.drop saucePos).take 5 ≠ strCodes "SAUCE" then none
  else
    let comments :=
      match comntPos with
      | some cp =>
        if cp < saucePos ∧ (input.drop cp).take 5 = strCodes "COMNT" then
          commentLines ((input.take saucePos).drop (cp + 5))
        else []
      | none => []
    some {
      title := decodeField input (saucePos + 7) 35
      author := decodeField input (saucePos + 42) 20
      group := decodeField input (saucePos + 62) 20
      date := decodeField input (saucePos + 82) 8
      width := (input.getD (saucePos + 96) 0) ||| ((input.getD (saucePos + 97) 0) <<< 8)
      height := (input.getD (saucePos + 98) 0) ||| ((input.getD (saucePos + 99) 0) <<< 8)
      comments := comments
      font := decodeField input (saucePos + 106) 22
    }

/-- Format a SAUCE record as `Key: Value` lines (`formatSauceOutput` from
`converter.ts`); the `/^\d{8}$/` regex test becomes an all-digits check. -/
def formatSauceOutput (sauce : SauceRecord) : String :=
  (if sauce.title = "" then "" else "Title: " ++ sauce.title ++ "\n")
  ++ (if sauce.author = "" then "" else "Author: " ++ sauce.author ++ "\n")
  ++ (if sauce.group = "" then "" else "Group: " ++ sauce.group ++ "\n")
  ++ (if sauce.date = "" then ""
      else if sauce.date.length = 8 ∧ sauce.date.data.all Char.isDigit then
        "Date: " ++ String.mk (sauce.date.data.take 4) ++ "-"
          ++ String.mk ((sauce.date.data.drop 4).take 2) ++ "-"
          ++ String.mk ((sauce.date.data.drop 6).take 2) ++ "\n"
      else "Date: " ++ sauce.date ++ "\n")
  ++ (if sauce.width > 0 ∨ sauce.height > 0 then
        "Size: " ++ toString sauce.width ++ "x" ++ toString sauce.height ++ "\n"
      else "")
  ++ (if sauce.font = "" then "" else "Font: " ++ sauce.font ++ "\n")
  ++ String.join (sauce.comments.map (fun c => "Comment: " ++ c ++ "\n"))

/-- Whether `pat` occurs in `input` starting at index `i` (the comparison
behind JavaScript `lastIndexOf` on the byte string). -/
def matchesAt (input pat : List Nat) (i : Nat) : Bool :=
  decide ((input.drop i).take pat.length = pat)

/-- JavaScript `input.lastIndexOf(pat)` over char-code lists: the largest
start index where `pat` occurs, if any. -/
def lastIndexOfList (input pat : List Nat) : Option Nat :=
  ((List.range (input.length + 1)).filter (matchesAt input pat)).getLast?

/-- Locate the SAUCE record and COMNT block (`findSaucePositions` from
`converter.ts`): last `SAUCE00` marker, last `COMNT` within the
`64 * 256 + 5` byte window before it (`Math.max(0, ...)` is `Nat`
subtraction), and the position just after the 128-byte record. -/
def findSaucePositions (input : List Nat) : Option Nat × Option Nat × Option Nat :=
  match lastIndexOfList input (strCodes "SAUCE00") with
  | none => (none, none, none)
  | some saucePos =>
    let searchStart := saucePos - (64 * 256 + 5)
    let searchArea := (input.take saucePos).drop searchStart
    let comntPos := (lastIndexOfList searchArea (strCodes "COMNT")).map
      (fun rel => searchStart + rel)
    (some saucePos, comntPos, some (saucePos + 128))

namespace Converter

/-- The first-SUB scan of `Converter.convert` (`for` loop with `break` at
the first `0x1A` byte). -/
def firstSubPos : List Nat → Option Nat
  | [] => none
  | c :: rest => if c = 0x1A then some 0 else (firstSubPos rest).map (· + 1)

/-- The content-end computation of `Converter.convert`: the first SUB
position when a SUB exists, else the COMNT marker, else the SAUCE marker,
else the input length. -/
def contentEndOf (input : List Nat) : Nat :=
  let (saucePos, comntPos, _) := findSaucePositions input
  match firstSubPos input with
  | some p => p
  | none =>
    match comntPos with
    | some c => c
    | none =>
      match saucePos with
      | some sp => sp
      | none => input.length

/-- Convert a CP437 input (list of byte values) to HTML
(`Converter.convert`). -/
def convert (opts : ConvertOptions) (input : List Nat) : String :=
  let s1 := openTag { output := "<pre class=\"ansi\">" : ConvState }
  let (saucePos, comntPos, afterSaucePos) := findSaucePositions input
  let contentEnd := contentEndOf input
  let s2 := (input.take contentEnd).foldl (processCharCode opts) s1
  let s3 :=
    match saucePos with
    | none => s2
    | some sp =>
      let s2a :=
        match parseSauceRecord input sp comntPos with
        | none => s2
        | some sauce =>
          let sauceOutput := formatSauceOutput sauce
          if sauceOutput = "" then s2
          else sauceOutput.data.foldl emitChar (emitChar s2 '\n')
      match afterSaucePos with
      | none => s2a
      | some ap =>
        if ap < input.length then
          let remaining := input.drop ap
          if remaining.any (fun code => decide (code ≠ 0 ∧ code ≠ 0x1A)) then
            (remaining.takeWhile (fun code => code != 0x1A)).foldl
              (processCharCode opts) (emitChar s2a '\n')
          else s2a
        else s2a
  (closeTag s3).output ++ "</pre>"

end Converter

/-- Structural substring scan: does `pat` occur in the list? -/
def infixOfB (pat : List Char) : List Char → Bool
  | [] => pat.isEmpty
  | c :: rest => pat.isPrefixOf (c :: rest) || infixOfB pat rest

/-- Substring occurrence on strings, used to state the spec's
"output contains ..." properties. -/
def containsSub (s pat : String) : Bool := infixOfB pat.data s.data

section Helpers

open Converter

/-- `switchColor` always lands on exactly the requested color pair. -/
theorem switchColor_fg_bg (s : ConvState) (nb nf : Nat) :
    (switchColor s nb nf).foreground = nf ∧ (switchColor s nb nf).background = nb := by
  unfold switchColor
  split
  · simp [openTag, closeTag]
  · rename_i h
    push_neg at h
    simp [h.1, h.2]

/-- `processSynchronetCode` commits exactly the pure `synchronetEffect`. -/
theorem processSynchronetCode_fg_bg (s : ConvState) (code : Nat) :
    (processSynchronetCode s code).foreground
        = (synchronetEffect code s.foreground s.background).1 ∧
    (processSynchronetCode s code).background
        = (synchronetEffect code s.foreground s.background).2 := by
  unfold processSynchronetCode
  exact switchColor_fg_bg _ _ _

/-- Every branch of the Synchronet effect table is idempotent on the
working color pair. -/
theorem synchronetEffect_idem (code fg bg : Nat) :
    synchronetEffect code (synchronetEffect code fg bg).1
        (synchronetEffect code fg bg).2 = synchronetEffect code fg bg := by
  unfold synchronetEffect
  split <;> simp [Nat.or_assoc, Nat.and_assoc]

end Helpers

/-- C9: every Synchronet Ctrl-A code's effect on the color state is
idempotent: for every code byte and every converter state, applying the
handler twice yields the same foreground/background as applying it once. -/
theorem c9_synchronet_idempotent (code : Nat) (s : ConvState) :
    (Converter.processSynchronetCode (Converter.processSynchronetCode s code) code).foreground
        = (Converter.processSynchronetCode s code).foreground ∧
    (Converter.processSynchronetCode (Converter.processSynchronetCode s code) code).background
        = (Converter.processSynchronetCode s code).background := by
  have h1 := processSynchronetCode_fg_bg s code
  have h2 := processSynchronetCode_fg_bg (Converter.processSynchronetCode s code) code
  have hi := synchronetEffect_idem code s.foreground s.background
  rw [h2.1, h2.2, h1.1, h1.2, hi]
  exact ⟨rfl, rfl⟩

section RangeHelpers

open Converter

/-- Bitwise or of two values below 16 stays below 16. -/
theorem or_le_15 {x y : Nat} (hx : x ≤ 15) (hy : y ≤ 15) : x ||| y ≤ 15 := by
  have : x ||| y < 2 ^ 4 :=
    Nat.or_lt_two_pow (by omega) (by omega)
  omega

/-- The ANSI→CGA remap lands in 0..7. -/
theorem ansiToCga_le (n : Nat) : ansiToCga n ≤ 7 := by
  unfold ansiToCga; split <;> omega

/-- The bright ANSI→CGA remap lands in 0..15. -/
theorem ansiBrightToCga_le (n : Nat) : ansiBrightToCga n ≤ 15 := by
  unfold ansiBrightToCga; split <;> omega

/-- One SGR parameter keeps the working color pair in 0..15. -/
theorem sgrStep_le (c : Nat × Nat) (code : Nat) (h1 : c.1 ≤ 15) (h2 : c.2 ≤ 15) :
    (sgrStep c code).1 ≤ 15 ∧ (sgrStep c code).2 ≤ 15 := by
  unfold sgrStep
  split <;>
    refine ⟨?_, ?_⟩ <;>
      dsimp only <;>
      first
        | assumption
        | omega
        | exact or_le_15 h1 (by omega)
        | exact or_le_15 h2 (by omega)
        | exact Nat.le_trans Nat.and_le_right (by omega)
        | exact or_le_15 (Nat.le_trans Nat.and_le_right (by omega))
            (Nat.le_trans (ansiToCga_le _) (by omega))
        | exact ansiBrightToCga_le _

/-- The SGR parameter fold keeps the working color pair in 0..15. -/
theorem foldl_sgrStep_le (codes : List Nat) (c : Nat × Nat)
    (h1 : c.1 ≤ 15) (h2 : c.2 ≤ 15) :
    (codes.foldl sgrStep c).1 ≤ 15 ∧ (codes.foldl sgrStep c).2 ≤ 15 := by
  induction codes generalizing c with
  | nil => exact ⟨h1, h2⟩
  | cons a l ih =>
    have h := sgrStep_le c a h1 h2
    exact ih _ h.1 h.2

/-- The Synchronet effect table keeps the working color pair in 0..15. -/
theorem synchronetEffect_le (code fg bg : Nat) (h1 : fg ≤ 15) (h2 : bg ≤ 15) :
    (synchronetEffect code fg bg).1 ≤ 15 ∧ (synchronetEffect code fg bg).2 ≤ 15 := by
  unfold synchronetEffect
  split <;>
    refine ⟨?_, ?_⟩ <;>
      dsimp only <;>
      first
        | assumption
        | omega
        | exact or_le_15 h1 (by omega)
        | exact or_le_15 h2 (by omega)
        | exact Nat.le_trans Nat.and_le_right (by omega)

end RangeHelpers

/-- C10: the SGR processor, the Synchronet code handler and the Renegade
code handler all keep the foreground and background in the range 0..15
(the range holding at the initial state foreground 7 / background 0), and
`colorToHex` maps every value in that range to a lowercase hex nibble, so
every emitted `ans-KF` tag carries two lowercase hex nibbles. -/
theorem c10_color_range_invariant :
    (({} : ConvState).foreground = 7 ∧ ({} : ConvState).background = 0) ∧
    (∀ (s : ConvState) (params : String), s.foreground ≤ 15 → s.background ≤ 15 →
      (Converter.processSgr s params).foreground ≤ 15 ∧
      (Converter.processSgr s params).background ≤ 15) ∧
    (∀ (s : ConvState) (code : Nat), s.foreground ≤ 15 → s.background ≤ 15 →
      (Converter.processSynchronetCode s code).foreground ≤ 15 ∧
      (Converter.processSynchronetCode s code).background ≤ 15) ∧
    (∀ (s : ConvState) (code : Nat), s.foreground ≤ 15 → s.background ≤ 15 →
      (Converter.processRenegadeCode s code).foreground ≤ 15 ∧
      (Converter.processRenegadeCode s code).background ≤ 15) ∧
    (∀ n : Nat, n ≤ 15 → colorToHex n ∈ "0123456789abcdef".data) := by
  refine ⟨⟨rfl, rfl⟩, ?_, ?_, ?_, ?_⟩
  · intro s params h1 h2
    unfold Converter.processSgr
    have hf := switchColor_fg_bg s
      ((if params = "" then [0] else (splitOnSemi params.data).map parseIntOr0L).foldl
        Converter.sgrStep (s.foreground, s.background)).2
      ((if params = "" then [0] else (splitOnSemi params.data).map parseIntOr0L).foldl
        Converter.sgrStep (s.foreground, s.background)).1
    have hb := foldl_sgrStep_le
      (if params = "" then [0] else (splitOnSemi params.data).map parseIntOr0L)
      (s.foreground, s.background) h1 h2
    exact ⟨hf.1 ▸ hb.1, hf.2 ▸ hb.2⟩
  · intro s code h1 h2
    have hf := processSynchronetCode_fg_bg s code
    have hb := synchronetEffect_le code s.foreground s.background h1 h2
    exact ⟨hf.1 ▸ hb.1, hf.2 ▸ hb.2⟩
  · intro s code h1 h2
    unfold Converter.processRenegadeCode
    have hf := switchColor_fg_bg { s with lineHasAnsi := true }
      (if 16 ≤ code ∧ code ≤ 23 then code - 16 else s.background)
      (if code ≤ 15 then code else s.foreground)
    refine ⟨hf.1 ▸ ?_, hf.2 ▸ ?_⟩ <;> split <;> omega
  · decide

/-- Witness for C10: the range invariant and the hex-nibble property at a
concrete state, parameter string and color value. -/
theorem c10_color_range_invariant_witness :
    ((Converter.processSgr {} "31").foreground ≤ 15 ∧
     (Converter.processSgr {} "31").background ≤ 15) ∧
    colorToHex 12 ∈ "0123456789abcdef".data :=
  ⟨c10_color_range_invariant.2.1 {} "31" (by decide) (by decide),
   c10_color_range_invariant.2.2.2.2 12 (by decide)⟩

/-- C7: while save-position suppression is active, `emitChar` returns the
state unchanged (no output, no column counting, no flag change), and on
the spec's example the output contains "Before" and "After" but never
"Hidden". -/
theorem c7_save_suppression :
    (∀ (s : ConvState) (ch : Char), s.savePositionActive = true →
        Converter.emitChar s ch = s) ∧
    (containsSub (Converter.convert {} (strCodes "Before\x1B[sHidden\x1B[uAfter"))
        "Before" = true ∧
     containsSub (Converter.convert {} (strCodes "Before\x1B[sHidden\x1B[uAfter"))
        "After" = true ∧
     containsSub (Converter.convert {} (strCodes "Before\x1B[sHidden\x1B[uAfter"))
        "Hidden" = false) := by
  constructor
  · intro s ch h
    unfold Converter.emitChar
    simp [h]
  · exact ⟨rfl, rfl, rfl⟩

/-- A converter state with save-position suppression active, for the C7
witness. -/
def suppressedState : ConvState := { savePositionActive := true }

/-- Witness for C7: suppressed emission at a concrete state and character. -/
theorem c7_save_suppression_witness :
    Converter.emitChar suppressedState 'x' = suppressedState :=
  c7_save_suppression.1 suppressedState 'x' rfl

/-- C1 (code evaluated at the failing input): the SGR processor has no
`38;5;N` handling, so `"\x1b[38;5;196mRed 256"` is processed as the
unrelated codes 38 (ignored), 5 (background blink bit) and 196 (ignored):
the output is `<ans-87>Red 256</ans-87>` and contains no `ans-256` tag. -/
theorem c1_sgr_extended_386_ignored :
    Converter.convert {} (strCodes "\x1B[38;5;196mRed 256")
        = "<pre class=\"ansi\"><ans-07></ans-07><ans-87>Red 256</ans-87></pre>" ∧
    containsSub (Converter.convert {} (strCodes "\x1B[38;5;196mRed 256"))
        "ans-256" = false :=
  ⟨rfl, rfl⟩

/-- C2 (code evaluated at the failing input): with the Renegade dialect
enabled, the second `|` of `"||04Text"` is reprocessed in `Normal` state
where it starts a fresh pipe sequence, so `04` is consumed as a color code:
the output is `<ans-07>|</ans-07><ans-04>Text</ans-04>` and does not
contain the literal substring `|04Text`. -/
theorem c2_doubled_pipe_restarts_code :
    Converter.convert { renegadePipe := true } (strCodes "||04Text")
        = "<pre class=\"ansi\"><ans-07>|</ans-07><ans-04>Text</ans-04></pre>" ∧
    containsSub (Converter.convert { renegadePipe := true } (strCodes "||04Text"))
        "|04Text" = false :=
  ⟨rfl, rfl⟩

/-- C3 (code evaluated at the failing input): `processCharCode` only
forwards two-digit Renegade codes `≤ 23` to `processRenegadeCode`, and
`processRenegadeCode` maps 16-23 to backgrounds 0-7, so `|24` is discarded
with no color change: the output of `"|24Text"` keeps the default
`<ans-07>` colors and contains no `<ans-87>` tag. -/
theorem c3_renegade_24_discarded :
    Converter.convert { renegadePipe := true } (strCodes "|24Text")
        = "<pre class=\"ansi\"><ans-07>Text</ans-07></pre>" ∧
    containsSub (Converter.convert { renegadePipe := true } (strCodes "|24Text"))
        "ans-87" = false :=
  ⟨rfl, rfl⟩

section TrailingPrefix

open Converter

/-- Appending a non-SUB byte cannot create a first SUB position. -/
theorem firstSubPos_append_none (l : List Nat) (c : Nat)
    (hl : firstSubPos l = none) (hc : c ≠ 26) :
    firstSubPos (l ++ [c]) = none := by
  induction l with
  | nil => simp [firstSubPos, hc]
  | cons a t ih =>
    by_cases ha : a = 26
    · simp [firstSubPos, ha] at hl
    · simp [firstSubPos, ha, Option.map_eq_none'] at hl ⊢
      exact ih hl

/-- Appending a byte other than `0x30` cannot create a `SAUCE00` marker
occurrence. -/
theorem lastIndexOf_sauce_append_none (l : List Nat) (c : Nat)
    (hl : lastIndexOfList l (strCodes "SAUCE00") = none) (hc : c ≠ 48) :
    lastIndexOfList (l ++ [c]) (strCodes "SAUCE00") = none := by
  unfold lastIndexOfList at hl ⊢
  rw [List.getLast?_eq_none_iff, List.filter_eq_nil_iff] at hl ⊢
  intro i hi hmatch
  unfold matchesAt at hmatch
  rw [decide_eq_true_eq] at hmatch
  have hplen : (strCodes "SAUCE00").length = 7 := rfl
  have hlen7 : ((((l ++ [c]).drop i).take 7)).length = 7 := by
    rw [hplen] at hmatch; rw [hmatch, hplen]
  have hX : (l ++ [c]).length = l.length + 1 := by simp
  have hge : i + 7 ≤ l.length + 1 := by
    rw [List.length_take, List.length_drop, hX] at hlen7
    omega
  by_cases hA : i + 7 ≤ l.length
  · have hdrop : (l ++ [c]).drop i = l.drop i ++ [c] :=
      List.drop_append_of_le_length (by omega)
    have htake : ((l.drop i ++ [c])).take 7 = (l.drop i).take 7 :=
      List.take_append_of_le_length (by rw [List.length_drop]; omega)
    have hm : matchesAt l (strCodes "SAUCE00") i = true := by
      unfold matchesAt
      rw [decide_eq_true_eq, hplen]
      rw [hplen, hdrop, htake] at hmatch
      exact hmatch
    exact hl i (by rw [List.mem_range]; omega) hm
  · have hieq : i + 7 = l.length + 1 := by omega
    have hile : i ≤ l.length := by omega
    have hdrop : (l ++ [c]).drop i = l.drop i ++ [c] :=
      List.drop_append_of_le_length hile
    have hlen : ((l.drop i ++ [c])).length = 7 := by
      rw [List.length_append, List.length_drop]
      simp
      omega
    have htake : ((l.drop i ++ [c])).take 7 = l.drop i ++ [c] :=
      List.take_of_length_le (by omega)
    rw [hplen, hdrop, htake] at hmatch
    have hlast := congrArg List.getLast? hmatch
    rw [List.getLast?_concat] at hlast
    have : c = 48 := by
      have h48 : (strCodes "SAUCE00").getLast? = some 48 := rfl
      rw [h48] at hlast
      exact Option.some.inj hlast
    exact hc this

/-- Without a `SAUCE00` marker all three SAUCE positions are `none`. -/
theorem findSauce_none (input : List Nat)
    (h : lastIndexOfList input (strCodes "SAUCE00") = none) :
    findSaucePositions input = (none, none, none) := by
  unfold findSaucePositions
  rw [h]

/-- Without a SUB byte and without a `SAUCE00` marker the whole input is
body content. -/
theorem contentEnd_of_none (input : List Nat)
    (h1 : firstSubPos input = none)
    (h2 : findSaucePositions input = (none, none, none)) :
    contentEndOf input = input.length := by
  unfold contentEndOf
  rw [h2, h1]

/-- On SUB-free, marker-free input, `convert` is the plain fold of the
state machine between the fixed prologue and epilogue. -/
theorem convert_no_trailer (opts : ConvertOptions) (input : List Nat)
    (h1 : firstSubPos input = none)
    (h2 : lastIndexOfList input (strCodes "SAUCE00") = none) :
    convert opts input =
      (closeTag (input.foldl (processCharCode opts)
        (openTag { output := "<pre class=\"ansi\">" }))).output ++ "</pre>" := by
  have hfs := findSauce_none input h2
  have hce := contentEnd_of_none input h1 hfs
  unfold convert
  rw [hfs, hce]
  simp only [List.take_length]

end TrailingPrefix

/-- C4 counterexample: a trailing `|` (Renegade enabled) and a trailing
Ctrl-A (Synchronet enabled) are NOT flushed as literal characters — the
output is exactly that of the input without the trailing prefix, and in
particular contains no `|`. -/
theorem c4_trailing_prefix_not_flushed_cex :
    Converter.convert { renegadePipe := true } (strCodes "A|")
        = "<pre class=\"ansi\"><ans-07>A</ans-07></pre>" ∧
    containsSub (Converter.convert { renegadePipe := true } (strCodes "A|")) "|" = false ∧
    Converter.convert { synchronetCtrlA := true } (strCodes "A" ++ [1])
        = "<pre class=\"ansi\"><ans-07>A</ans-07></pre>" :=
  ⟨rfl, rfl, rfl⟩

/-- C4 (amended): an input ending while a vendor-prefix sequence is
incomplete (a trailing `|` with renegadePipe enabled, or a trailing Ctrl-A
with synchronetCtrlA enabled, as the last processed unit of a SUB-free,
SAUCE-free input whose preceding processing ends in `Normal` state)
produces exactly the output of the input without the trailing prefix: the
prefix is silently discarded, not flushed. -/
theorem c4_trailing_prefix_discarded (opts : ConvertOptions) (l : List Nat) (c : Nat)
    (hc : c = 0x7C ∧ opts.renegadePipe = true ∨ c = 0x01 ∧ opts.synchronetCtrlA = true)
    (h1 : Converter.firstSubPos l = none)
    (h2 : lastIndexOfList l (strCodes "SAUCE00") = none)
    (h3 : (l.foldl (Converter.processCharCode opts)
        (Converter.openTag { output := "<pre class=\"ansi\">" })).parseState
        = ParseState.Normal) :
    Converter.convert opts (l ++ [c]) = Converter.convert opts l := by
  have hc26 : c ≠ 26 := by rcases hc with ⟨rfl, _⟩ | ⟨rfl, _⟩ <;> decide
  have hc48 : c ≠ 48 := by rcases hc with ⟨rfl, _⟩ | ⟨rfl, _⟩ <;> decide
  rw [convert_no_trailer opts l h1 h2,
      convert_no_trailer opts (l ++ [c]) (firstSubPos_append_none l c h1 hc26)
        (lastIndexOf_sauce_append_none l c h2 hc48),
      List.foldl_append]
  set s := l.foldl (Converter.processCharCode opts)
      (Converter.openTag { output := "<pre class=\"ansi\">" }) with hs
  show (Converter.closeTag (Converter.processCharCode opts s c)).output ++ "</pre>" = _
  rcases hc with ⟨rfl, hr⟩ | ⟨rfl, hr⟩
  · have hstep : Converter.processCharCode opts s 0x7C
        = { s with parseState := ParseState.RenegadePipe1 } := by
      unfold Converter.processCharCode
      rw [h3]
      simp [Converter.processNormal, hr]
    rw [hstep]
    rfl
  · have hstep : Converter.processCharCode opts s 0x01
        = { s with parseState := ParseState.SynchronetCtrlA } := by
      unfold Converter.processCharCode
      rw [h3]
      simp [Converter.processNormal, hr]
    rw [hstep]
    rfl

/-- Witness for C4 at the concrete input `"A" ++ "|"` with the Renegade
dialect enabled. -/
theorem c4_trailing_prefix_discarded_witness :
    Converter.convert { renegadePipe := true } ([65] ++ [124])
        = Converter.convert { renegadePipe := true } [65] :=
  c4_trailing_prefix_discarded { renegadePipe := true } [65] 124
    (Or.inl ⟨rfl, rfl⟩) rfl rfl rfl

/-- Characterization of the first-SUB scan: it returns exactly the least
index holding byte `0x1A`. -/
theorem firstSubPos_eq_some (l : List Nat) (p : Nat) (hp : p < l.length)
    (hv : l.getD p 0 = 26) (hmin : ∀ j, j < p → l.getD j 0 ≠ 26) :
    Converter.firstSubPos l = some p := by
  induction l generalizing p with
  | nil => simp at hp
  | cons a t ih =>
    cases p with
    | zero =>
      simp only [List.getD_cons_zero] at hv
      simp [Converter.firstSubPos, hv]
    | succ q =>
      have ha : a ≠ 26 := by
        have := hmin 0 (Nat.succ_pos q)
        simpa using this
      have hv' : t.getD q 0 = 26 := by simpa using hv
      have hp' : q < t.length := by
        simp only [List.length_cons] at hp
        omega
      have hmin' : ∀ j, j < q → t.getD j 0 ≠ 26 := by
        intro j hj
        have := hmin (j + 1) (by omega)
        simpa using this
      simp [Converter.firstSubPos, ha, ih q hp' hv' hmin']

/-- The input showing that a SUB after the SAUCE marker still bounds the
body: `"AB"`, then a 128-byte SAUCE record whose first title byte is SUB. -/
def c5ex : List Nat := strCodes "AB" ++ strCodes "SAUCE00" ++ [26] ++ List.replicate 120 0

set_option maxRecDepth 20000 in
/-- C5 counterexample: `c5ex` contains a SAUCE trailer at position 2 (it
parses, producing a `Title:` line) and its only SUB byte at position 9;
the body nevertheless ends at 9, not at the earliest marker 2, so the
SAUCE record bytes `SAUCE00` are rendered as ordinary content. -/
theorem c5_content_end_not_earliest_cex :
    (findSaucePositions c5ex).1 = some 2 ∧
    Converter.firstSubPos c5ex = some 9 ∧
    Converter.contentEndOf c5ex = 9 ∧
    containsSub (Converter.convert {} c5ex) "ABSAUCE00" = true ∧
    containsSub (Converter.convert {} c5ex) "Title:" = true :=
  ⟨rfl, rfl, rfl, rfl, rfl⟩

/-- C5 (amended): the body processed before the trailer ends at the first
SUB byte whenever any SUB exists — even one after the COMNT/SAUCE
markers — and only in the absence of a SUB falls back to the COMNT marker
position when a COMNT block was found, then to the SAUCE marker position,
then to the input length. -/
theorem c5_content_end_cascade :
    (∀ (input : List Nat) (p : Nat), p < input.length → input.getD p 0 = 26 →
        (∀ j, j < p → input.getD j 0 ≠ 26) →
        Converter.contentEndOf input = p) ∧
    (∀ (input : List Nat) (cp : Nat), Converter.firstSubPos input = none →
        (findSaucePositions input).2.1 = some cp →
        Converter.contentEndOf input = cp) ∧
    (∀ (input : List Nat) (sp : Nat), Converter.firstSubPos input = none →
        (findSaucePositions input).1 = some sp →
        (findSaucePositions input).2.1 = none →
        Converter.contentEndOf input = sp) ∧
    (∀ input : List Nat, Converter.firstSubPos input = none →
        lastIndexOfList input (strCodes "SAUCE00") = none →
        Converter.contentEndOf input = input.length) := by
  refine ⟨?_, ?_, ?_, ?_⟩
  · intro input p hp hv hmin
    have h := firstSubPos_eq_some input p hp hv hmin
    rcases hfs : findSaucePositions input with ⟨sp0, cp0, ap0⟩
    simp [Converter.contentEndOf, hfs, h]
  · intro input cp hsub hcp
    rcases hfs : findSaucePositions input with ⟨sp0, cp0, ap0⟩
    rw [hfs] at hcp
    simp only at hcp
    simp [Converter.contentEndOf, hfs, hsub, hcp]
  · intro input sp hsub hsp hcp
    rcases hfs : findSaucePositions input with ⟨sp0, cp0, ap0⟩
    rw [hfs] at hsp hcp
    simp only at hsp hcp
    simp [Converter.contentEndOf, hfs, hsub, hsp, hcp]
  · intro input hsub hmk
    simp [Converter.contentEndOf, findSauce_none input hmk, hsub]

/-- A SUB-free input carrying a COMNT block before its SAUCE marker, for
the C5 witness. -/
def c5wit : List Nat := strCodes "X" ++ strCodes "COMNT" ++ strCodes "AAAA" ++ strCodes "SAUCE00"

/-- Witness for C5 at concrete inputs: a first SUB byte at index 1 bounds
the body, and on the SUB-free input `c5wit` with a COMNT block at index 1
the body falls back to the COMNT marker position. -/
theorem c5_content_end_cascade_witness :
    Converter.contentEndOf [0, 26] = 1 ∧ Converter.contentEndOf c5wit = 1 :=
  ⟨c5_content_end_cascade.1 [0, 26] 1 (by decide) (by decide) (by decide),
   c5_content_end_cascade.2.1 c5wit 1 rfl rfl⟩

/-- Spec-side description of the formatted SAUCE metadata block (C8): one
`Key: Value` line per non-empty field in the fixed order Title, Author,
Group, Date, Size, Font, then one `Comment:` line per comment; the Date
value is reformatted from CCYYMMDD to CCYY-MM-DD exactly when the field is
exactly 8 digits, and the Size line `WxH` appears exactly when width or
height is nonzero. -/
def sauceSpecLines (sauce : SauceRecord) : List String :=
  (if sauce.title = "" then [] else ["Title: " ++ sauce.title])
  ++ (if sauce.author = "" then [] else ["Author: " ++ sauce.author])
  ++ (if sauce.group = "" then [] else ["Group: " ++ sauce.group])
  ++ (if sauce.date = "" then []
      else if sauce.date.length = 8 ∧ sauce.date.data.all Char.isDigit then
        ["Date: " ++ String.mk (sauce.date.data.take 4) ++ "-"
          ++ String.mk ((sauce.date.data.drop 4).take 2) ++ "-"
          ++ String.mk ((sauce.date.data.drop 6).take 2)]
      else ["Date: " ++ sauce.date])
  ++ (if sauce.width > 0 ∨ sauce.height > 0 then
        ["Size: " ++ toString sauce.width ++ "x" ++ toString sauce.height]
      else [])
  ++ (if sauce.font = "" then [] else ["Font: " ++ sauce.font])
  ++ sauce.comments.map (fun c => "Comment: " ++ c)

/-- The spec-side block: each line terminated by a newline, concatenated. -/
def formatSauceSpec (sauce : SauceRecord) : String :=
  String.join ((sauceSpecLines sauce).map (fun line => line ++ "\n"))

/-- Two strings with equal character data are equal. -/
theorem stringDataExt {a b : String} (h : a.data = b.data) : a = b := by
  cases a
  cases b
  exact congrArg String.mk h

/-- `String.join` distributes over list append. -/
theorem join_append (l1 l2 : List String) :
    String.join (l1 ++ l2) = String.join l1 ++ String.join l2 := by
  apply stringDataExt
  simp

/-- C8: the source's `formatSauceOutput` produces exactly the block the
spec describes: one `Key: Value` line per non-empty field in order Title,
Author, Group, Date (reformatted iff exactly 8 digits), Size (iff width or
height nonzero), Font, then one `Comment:` line per comment. -/
theorem c8_format_sauce_spec (sauce : SauceRecord) :
    formatSauceOutput sauce = formatSauceSpec sauce := by
  have ht : (if sauce.title = "" then "" else "Title: " ++ sauce.title ++ "\n")
      = String.join ((if sauce.title = "" then [] else ["Title: " ++ sauce.title]).map
          (fun line => line ++ "\n")) := by
    split <;> rfl
  have hau : (if sauce.author = "" then "" else "Author: " ++ sauce.author ++ "\n")
      = String.join ((if sauce.author = "" then [] else ["Author: " ++ sauce.author]).map
          (fun line => line ++ "\n")) := by
    split <;> rfl
  have hgr : (if sauce.group = "" then "" else "Group: " ++ sauce.group ++ "\n")
      = String.join ((if sauce.group = "" then [] else ["Group: " ++ sauce.group]).map
          (fun line => line ++ "\n")) := by
    split <;> rfl
  have hd : (if sauce.date = "" then ""
        else if sauce.date.length = 8 ∧ sauce.date.data.all Char.isDigit then
          "Date: " ++ String.mk (sauce.date.data.take 4) ++ "-"
            ++ String.mk ((sauce.date.data.drop 4).take 2) ++ "-"
            ++ String.mk ((sauce.date.data.drop 6).take 2) ++ "\n"
        else "Date: " ++ sauce.date ++ "\n")
      = String.join ((if sauce.date = "" then []
          else if sauce.date.length = 8 ∧ sauce.date.data.all Char.isDigit then
            ["Date: " ++ String.mk (sauce.date.data.take 4) ++ "-"
              ++ String.mk ((sauce.date.data.drop 4).take 2) ++ "-"
              ++ String.mk ((sauce.date.data.drop 6).take 2)]
          else ["Date: " ++ sauce.date]).map (fun line => line ++ "\n")) := by
    split_ifs <;> rfl
  have hsz : (if sauce.width > 0 ∨ sauce.height > 0 then
        "Size: " ++ toString sauce.width ++ "x" ++ toString sauce.height ++ "\n"
      else "")
      = String.join ((if sauce.width > 0 ∨ sauce.height > 0 then
          ["Size: " ++ toString sauce.width ++ "x" ++ toString sauce.height]
        else []).map (fun line => line ++ "\n")) := by
    split <;> rfl
  have hf : (if sauce.font = "" then "" else "Font: " ++ sauce.font ++ "\n")
      = String.join ((if sauce.font = "" then [] else ["Font: " ++ sauce.font]).map
          (fun line => line ++ "\n")) := by
    split <;> rfl
  unfold formatSauceOutput formatSauceSpec sauceSpecLines
  simp only [List.map_append, join_append, List.map_map]
  rw [ht, hau, hgr, hd, hsz, hf]
  rfl



section NewlineHelpers

open Converter

/-- `Char.ofNat` only yields the line feed character at code 10. -/
theorem char_ofNat_eq_nl (n : Nat) (h : Char.ofNat n = '\n') : n = 10 := by
  rw [Char.ofNat] at h
  split at h
  · rename_i hv
    have ht := congrArg Char.toNat h
    rw [show ('\n').toNat = 10 from rfl] at ht
    rw [show (Char.ofNatAux n hv).toNat = n from rfl] at ht
    exact ht
  · exact absurd (congrArg Char.toNat h) (by decide)

set_option maxRecDepth 4000 in
/-- The first 256 code-page entries are never a line feed. -/
theorem cp437_bound_ne_nl : ∀ i, i < 256 →
    CP437_TO_UNICODE.getD i (Char.ofNat 0xFFFD) ≠ '\n' := by decide

set_option maxRecDepth 4000 in
/-- No code-page lookup (with the replacement-character default) yields a
line feed. -/
theorem cp437_getD_ne_nl (i : Nat) :
    CP437_TO_UNICODE.getD i (Char.ofNat 0xFFFD) ≠ '\n' := by
  rcases Nat.lt_or_ge i 256 with h | h
  · exact cp437_bound_ne_nl i h
  · have hlen : CP437_TO_UNICODE.length = 256 := rfl
    rw [List.getD_eq_getElem?_getD, List.getElem?_eq_none (by omega)]
    decide

/-- `colorToHex` never yields a line feed. -/
theorem colorToHex_ne_nl (n : Nat) : colorToHex n ≠ '\n' := by
  unfold colorToHex
  split_ifs with h1 h2
  · intro h
    have := char_ofNat_eq_nl _ h
    omega
  · intro h
    have := char_ofNat_eq_nl _ h
    omega
  · decide

/-- `closeTag` appends no line feed. -/
theorem closeTag_count_nl (s : ConvState) :
    (closeTag s).output.data.count '\n' = s.output.data.count '\n' := by
  unfold closeTag
  have h1 : ("</ans-".data).count '\n' = 0 := rfl
  have h2 : (">".data).count '\n' = 0 := rfl
  simp [List.count_append, List.count_cons, h1, h2,
    colorToHex_ne_nl s.background, colorToHex_ne_nl s.foreground]

end NewlineHelpers

/-- On an unsuppressed state whose line has no escape, `emitChar` adds a
line feed to the output exactly when the character is one, and preserves
the parse state and all flags. -/
theorem emitChar_count_nl (s : ConvState) (ch : Char)
    (hsp : s.savePositionActive = false) (hla : s.lineHasAnsi = false) :
    (Converter.emitChar s ch).output.data.count '\n'
        = s.output.data.count '\n' + (if ch = '\n' then 1 else 0) ∧
    (Converter.emitChar s ch).lineHasAnsi = false ∧
    (Converter.emitChar s ch).savePositionActive = false ∧
    (Converter.emitChar s ch).parseState = s.parseState := by
  unfold Converter.emitChar
  simp only [hsp, hla, Bool.false_eq_true, if_false, false_and, ite_false]
  split_ifs with h1 h2 h3 h4 h5 h6 h7 <;>
    simp_all [List.count_append, List.count_cons, String.singleton]

/-- With default options, a non-ESC byte processed from an escape-free
`Normal` state adds a line feed exactly when it is one, and leaves the
state machine in `Normal` with both flags clear. -/
theorem processCharCode_count_nl (s : ConvState) (c : Nat)
    (hps : s.parseState = ParseState.Normal)
    (hsp : s.savePositionActive = false) (hla : s.lineHasAnsi = false)
    (hc : c ≠ 27) :
    (Converter.processCharCode {} s c).output.data.count '\n'
        = s.output.data.count '\n' + (if c = 10 then 1 else 0) ∧
    (Converter.processCharCode {} s c).parseState = ParseState.Normal ∧
    (Converter.processCharCode {} s c).savePositionActive = false ∧
    (Converter.processCharCode {} s c).lineHasAnsi = false := by
  unfold Converter.processCharCode
  rw [hps]
  unfold Converter.processNormal
  have hopts1 : ({} : ConvertOptions).synchronetCtrlA = false := rfl
  have hopts2 : ({} : ConvertOptions).renegadePipe = false := rfl
  simp only [hopts1, hopts2, Bool.false_eq_true, false_and, if_false, ite_false, if_neg hc]
  split_ifs with h3 h4 h5
  · -- c = 10 : literal line feed
    have he := emitChar_count_nl s '\n' hsp hla
    simp only [if_pos rfl] at he
    exact ⟨he.1, he.2.2.2 ▸ hps, he.2.2.1, he.2.1⟩
  · -- c = 13 : carriage return suppressed
    simp [h4, hps, hsp, hla]
  · -- control / high byte through the code page
    have he := emitChar_count_nl s (CP437_TO_UNICODE.getD c (Char.ofNat 0xFFFD)) hsp hla
    rw [if_neg (cp437_getD_ne_nl c)] at he
    simp only [he.1, he.2.1, he.2.2.1, he.2.2.2, hps, if_neg h3, and_true, true_and]
  · -- printable ASCII byte
    have hch : Char.ofNat c ≠ '\n' := fun h => h3 (char_ofNat_eq_nl c h)
    have he := emitChar_count_nl s (Char.ofNat c) hsp hla
    rw [if_neg hch] at he
    simp only [he.1, he.2.1, he.2.2.1, he.2.2.2, hps, if_neg h3, and_true, true_and]

/-- With default options, folding the state machine over an ESC-free byte
list from an escape-free `Normal` state adds exactly one line feed per
`0x0A` byte. -/
theorem foldl_processCharCode_count_nl (l : List Nat) (s : ConvState)
    (hps : s.parseState = ParseState.Normal)
    (hsp : s.savePositionActive = false) (hla : s.lineHasAnsi = false)
    (hl : ∀ x ∈ l, x ≠ 27) :
    (l.foldl (Converter.processCharCode {}) s).output.data.count '\n'
        = s.output.data.count '\n' + l.count 10 ∧
    (l.foldl (Converter.processCharCode {}) s).parseState = ParseState.Normal ∧
    (l.foldl (Converter.processCharCode {}) s).savePositionActive = false ∧
    (l.foldl (Converter.processCharCode {}) s).lineHasAnsi = false := by
  induction l generalizing s with
  | nil => exact ⟨by simp, hps, hsp, hla⟩
  | cons a t ih =>
    have hstep := processCharCode_count_nl s a hps hsp hla (hl a (by simp))
    have hrec := ih (Converter.processCharCode {} s a) hstep.2.1 hstep.2.2.1 hstep.2.2.2
      (fun x hx => hl x (List.mem_cons_of_mem a hx))
    refine ⟨?_, ?_, ?_, ?_⟩
    · simp only [List.foldl_cons, List.count_cons]
      rw [hrec.1, hstep.1]
      by_cases h10 : a = 10 <;> simp [h10]
      omega
    · simpa [List.foldl_cons] using hrec.2.1
    · simpa [List.foldl_cons] using hrec.2.2.1
    · simpa [List.foldl_cons] using hrec.2.2.2

/-- `switchColor` never touches the line-escape flag. -/
theorem switchColor_lineHasAnsi (s : ConvState) (nb nf : Nat) :
    (Converter.switchColor s nb nf).lineHasAnsi = s.lineHasAnsi := by
  unfold Converter.switchColor
  split <;> rfl

/-- On marker-free input, `convert` is the fold over the body up to the
content end, between the fixed prologue and epilogue. -/
theorem convert_no_sauce (opts : ConvertOptions) (input : List Nat)
    (h2 : lastIndexOfList input (strCodes "SAUCE00") = none) :
    Converter.convert opts input =
      (Converter.closeTag ((input.take (Converter.contentEndOf input)).foldl
        (Converter.processCharCode opts)
        (Converter.openTag { output := "<pre class=\"ansi\">" }))).output ++ "</pre>" := by
  unfold Converter.convert
  rw [findSauce_none input h2]

/-- The input for the C6 counterexample: no escape byte, no line feed, but
a SAUCE trailer whose formatted metadata forces line feeds into the output. -/
def c6ex : List Nat := strCodes "Hi" ++ strCodes "SAUCE00" ++ [84] ++ List.replicate 120 0

set_option maxRecDepth 20000 in
/-- C6 counterexample: `c6ex` contains no escape or vendor sequence and no
line feed at all, yet the conversion output contains two line feeds
(introduced around the SAUCE metadata block), so an input devoid of
escape/vendor sequences can produce newlines not present in the input. -/
theorem c6_sauce_newlines_cex :
    (∀ x ∈ c6ex, x ≠ 27) ∧ c6ex.count 10 = 0 ∧
    (Converter.convert {} c6ex).data.count '\n' = 2 :=
  ⟨by decide, rfl, rfl⟩

set_option maxRecDepth 40000 in
/-- C6 (amended): every SGR dispatch marks the line as having seen an
escape (enabling the soft wrap); a run of 85 literal characters preceded
by an SGR sequence gets exactly 80 characters on the first visual line
before an injected line feed; and for any input devoid of escape bytes and
without a SAUCE trailer, converted with default options, the output
contains no line feed beyond those present in the input. -/
theorem c6_soft_wrap_iff_escape :
    (∀ (s : ConvState) (params : String),
        (Converter.processCsi s params 'm').lineHasAnsi = true) ∧
    Converter.convert {} (strCodes "\x1B[31m" ++ List.replicate 85 88)
        = "<pre class=\"ansi\"><ans-07></ans-07><ans-04>"
          ++ String.mk (List.replicate 80 'X') ++ "\n"
          ++ String.mk (List.replicate 5 'X') ++ "</ans-04></pre>" ∧
    (∀ input : List Nat, (∀ x ∈ input, x ≠ 27) →
        lastIndexOfList input (strCodes "SAUCE00") = none →
        (Converter.convert {} input).data.count '\n' ≤ input.count 10) := by
  refine ⟨?_, by rfl, ?_⟩
  · intro s params
    unfold Converter.processCsi
    simp only [reduceIte]
    unfold Converter.processSgr
    rw [switchColor_lineHasAnsi]
  · intro input hesc hmk
    rw [convert_no_sauce {} input hmk]
    have hfold := foldl_processCharCode_count_nl (input.take (Converter.contentEndOf input))
      (Converter.openTag { output := "<pre class=\"ansi\">" }) rfl rfl rfl
      (fun x hx => hesc x ((List.take_sublist _ _).subset hx))
    have h1 : ("</pre>".data).count '\n' = 0 := rfl
    have h0 : ((Converter.openTag
        { output := "<pre class=\"ansi\">" : ConvState }).output.data).count '\n' = 0 := rfl
    simp only [String.data_append, List.count_append, closeTag_count_nl, h1]
    rw [hfold.1, h0]
    simpa using (List.take_sublist (Converter.contentEndOf input) input).count_le 10

/-- Witness for C6 at the concrete escape-free input `[72]`. -/
theorem c6_soft_wrap_iff_escape_witness :
    (Converter.convert {} [72]).data.count '\n' ≤ List.count 10 [72] :=
  c6_soft_wrap_iff_escape.2.2 [72] (by decide) rfl
